import Mathlib

/-!
Shallow embedding of `add_milestone3.py`: the Reference Store loaders
(`download_file`, `parse_baseline_units`, `load_opb_mappings`), the
Compatibility Resolver (the first-match scan inside
`map_variable_units_to_opb`), the Model Mapper
(`map_variable_units_to_opb`) and the per-file loop of `main`.

Python strings are modelled as `List Char` inside the text scanner (so
that everything evaluates in the kernel) and as `String` at the
interfaces.  Python dicts are modelled as ordered association lists with
insert-or-replace update, matching CPython's insertion-order semantics.
The opaque `libcellml.Units.compatible` predicate is a parameter
`compat : U → U → Bool`, and unit objects are a type parameter `U`.
-/

namespace AddMilestone3

/-- Characterwise test that `p` is an initial segment of `s`
(Python `str.startswith`, on explicit character lists). -/
def startsWithCh : List Char → List Char → Bool
  | _, [] => true
  | [], _ :: _ => false
  | a :: s, b :: p => a == b && startsWithCh s p

/-- Substring containment, Python's `pat in s`. -/
def containsCh (pat : List Char) : List Char → Bool
  | [] => startsWithCh [] pat
  | c :: rest => startsWithCh (c :: rest) pat || containsCh pat rest

/-- Python `str.strip()`: drop whitespace from both ends. -/
def stripCh (cs : List Char) : List Char :=
  ((cs.dropWhile Char.isWhitespace).reverse.dropWhile Char.isWhitespace).reverse

/-- Fuel-driven worker for `splitOnCh`; fuel bounds the number of steps so
the recursion is structural and reduces in the kernel. -/
def splitOnChAux (sep : List Char) : Nat → List Char → List Char → List (List Char)
  | 0, s, acc => [acc ++ s]
  | _ + 1, [], acc => [acc]
  | fuel + 1, c :: rest, acc =>
    if sep ≠ [] && startsWithCh (c :: rest) sep then
      acc :: splitOnChAux sep fuel (List.drop sep.length (c :: rest)) []
    else
      splitOnChAux sep fuel rest (acc ++ [c])

/-- Python `s.split(sep)` for a non-empty separator: split at every
occurrence, keeping empty pieces. -/
def splitOnCh (s sep : List Char) : List (List Char) :=
  splitOnChAux sep (s.length + 1) s []

/-- Fuel-driven worker for `replaceCh`. -/
def replaceChAux (pat rep : List Char) : Nat → List Char → List Char
  | 0, s => s
  | _ + 1, [] => []
  | fuel + 1, c :: rest =>
    if startsWithCh (c :: rest) pat then
      rep ++ replaceChAux pat rep fuel (List.drop pat.length (c :: rest))
    else
      c :: replaceChAux pat rep fuel rest

/-- Python `s.replace(pat, rep)` for a non-empty `pat`: replace every
(left-to-right, non-overlapping) occurrence. -/
def replaceCh (s pat rep : List Char) : List Char :=
  if pat = [] then s else replaceChAux pat rep (s.length + 1) s

/-- Python `s.split()` (no argument): split on blanks and drop the empty
pieces.  The source's lines are separated by ordinary spaces. -/
def splitWsCh (s : List Char) : List (List Char) :=
  (splitOnCh s [' ']).filter (fun p => p ≠ [])

/-- Ordered-dict lookup `m.get(k)` / `m[k]` over an association list with
unique keys (the way every dict in the source is built). -/
def dictGet {α : Type} (m : List (String × α)) (k : String) : Option α :=
  (m.find? (fun p => p.1 == k)).map Prod.snd

/-- Ordered-dict update `m[k] = v`: replace in place when the key exists,
append otherwise — CPython's insertion-order semantics. -/
def dictInsert {α : Type} (m : List (String × α)) (k : String) (v : α) :
    List (String × α) :=
  if m.any (fun p => p.1 == k) then
    m.map (fun p => if p.1 == k then (k, v) else p)
  else
    m ++ [(k, v)]

/-- The working directory as seen by `download_file`: whether the local
cache file exists, and its contents when it does. -/
structure FsState where
  cacheExists : Bool
  cacheContents : Option (List Char)
  deriving DecidableEq

/-- Outcome of the one `requests.get` a missing cache triggers: a body, or
an HTTP error that `raise_for_status` turns into an exception. -/
inductive FetchResult where
  | ok (text : List Char)
  | httpError
  deriving DecidableEq

/-- Embedding of `download_file` (src/add_milestone3.py:12-17).  Returns
the new filesystem state together with a flag recording whether the
network was touched; `Except.error` models the uncaught
`raise_for_status` exception ending the run. -/
def download_file (st : FsState) (fetch : FetchResult) :
    Except Unit (FsState × Bool) :=
  if st.cacheExists then
    .ok (st, false)
  else
    match fetch with
    | .httpError => .error ()
    | .ok text => .ok ({ cacheExists := true, cacheContents := some text }, true)

/-- Embedding of `parse_baseline_units` (src/add_milestone3.py:27-38)
after the file is in hand: `parsed` is the result of
`parser.parseModel` (`none` models a `None` return, on which the loop
header `baseline_model.unitsCount()` raises, ending the run), and the
dict is built from the model's units list in order. -/
def parse_baseline_units {U : Type} (parsed : Option (List (String × U))) :
    Except Unit (List (String × U)) :=
  match parsed with
  | none => .error ()
  | some units => .ok (units.foldl (fun m p => dictInsert m p.1 p.2) [])

/-- One line of the RDF scanner (src/add_milestone3.py:44-60): `none`
when the line is skipped, otherwise the subject unit name and the code
list the line assigns to it. -/
def lineSubject? (rawLine : List Char) : Option (String × List String) :=
  let line := stripCh rawLine
  if line = [] || startsWithCh line "@prefix".data then
    none
  else if containsCh "is_unit_of:".data line && containsCh "opb:OPB_".data line then
    match splitWsCh line with
    | [] => none
    | p0 :: _ =>
      if startsWithCh p0 "ex:".data then
        let unit_name := List.drop 3 p0
        let opb_part := (splitOnCh line "is_unit_of:".data).getD 1 []
        let opb_codes := (splitOnCh opb_part [',']).foldl
          (fun acc code =>
            let code := replaceCh (replaceCh
              (replaceCh (stripCh code) "opb:OPB_".data "OPB_".data)
              ['.'] [] ) [';'] []
            if startsWithCh code "OPB_".data then acc ++ [⟨code⟩] else acc) []
        some (⟨unit_name⟩, opb_codes)
      else none
  else none

/-- Processing one line of the RDF file: skip, or assign (replacing any
earlier assignment to the same unit name). -/
def processLine (m : List (String × List String)) (rawLine : List Char) :
    List (String × List String) :=
  match lineSubject? rawLine with
  | none => m
  | some (n, cs) => dictInsert m n cs

/-- Embedding of `load_opb_mappings` (src/add_milestone3.py:40-61) once
the file's lines are in hand. -/
def load_opb_mappings (lines : List (List Char)) : List (String × List String) :=
  lines.foldl processLine []

/-- The association-table acquisition step of `load_opb_mappings`
(src/add_milestone3.py:41): the same fetch-if-absent `download_file`,
applied to the RDF cache file, so a missing cache whose fetch fails
raises out of `load_opb_mappings` and ends the run before any model
file is processed. -/
def load_opb_mappings_fetch (st : FsState) (fetch : FetchResult) :
    Except Unit (FsState × Bool) :=
  download_file st fetch

/-- A variable of a parsed model: its name and the name of its declared
unit (`var.units()` yields a `Units` object or a plain name; both
branches of lines 92-97 of the source end in the name string). -/
structure ModelVariable where
  name : String
  unitsName : String
  deriving DecidableEq

/-- A component of a parsed model, with its ordered variables. -/
structure Component where
  name : String
  vars : List ModelVariable
  deriving DecidableEq

/-- A parsed model, as the mapper consumes it: the ordered list of
locally declared units (name and unit object) and the components. -/
structure Model (U : Type) where
  units : List (String × U)
  components : List Component

/-- The mapper's output record (src/add_milestone3.py:109-114):
`opb_code` is `opb_map.get(base_name)`, hence `none` when the matched
baseline name is absent from the ontology table. -/
structure MappingRecord where
  variableName : String
  unit : String
  mapped_to : String
  opb_code : Option (List String)
  deriving DecidableEq

/-- The Compatibility Resolver: the inner `for base_name, base_units in
baseline_units.items(): if compatible: ...; break` loop of
src/add_milestone3.py:106-116, i.e. the first baseline pair (in the
stored order) whose unit object is compatible with `units_obj`. -/
def resolveFirst {U : Type} (compat : U → U → Bool) (units_obj : U)
    (baseline_units : List (String × U)) : Option (String × U) :=
  baseline_units.find? (fun p => compat units_obj p.2)

/-- Resolution of a declared unit name to a unit object
(src/add_milestone3.py:99-104): first model-local units (the first
declaration with that name, as `list.index` returns), then the baseline
dict, else nothing. -/
def lookupUnitObj {U : Type} (model : Model U) (baseline_units : List (String × U))
    (unit_name : String) : Option U :=
  match model.units.find? (fun p => p.1 == unit_name) with
  | some p => some p.2
  | none => dictGet baseline_units unit_name

/-- The record the mapper emits for one variable, when it emits one:
the variable's unit name must resolve to a unit object and the resolver
must find a compatible baseline unit. -/
def recordFor {U : Type} (compat : U → U → Bool) (model : Model U)
    (baseline_units : List (String × U)) (opb_map : List (String × List String))
    (v : ModelVariable) : Option MappingRecord :=
  (lookupUnitObj model baseline_units v.unitsName).bind fun units_obj =>
    (resolveFirst compat units_obj baseline_units).map fun bm =>
      { variableName := v.name, unit := v.unitsName, mapped_to := bm.1,
        opb_code := dictGet opb_map bm.1 }

/-- One iteration of the variable loop of `map_variable_units_to_opb`
(src/add_milestone3.py:90-116) on the running state
`(mapped, total, mapping_details)`. -/
def stepVar {U : Type} (compat : U → U → Bool) (model : Model U)
    (baseline_units : List (String × U)) (opb_map : List (String × List String))
    (st : Nat × Nat × List MappingRecord) (v : ModelVariable) :
    Nat × Nat × List MappingRecord :=
  match lookupUnitObj model baseline_units v.unitsName with
  | none => st
  | some units_obj =>
    match resolveFirst compat units_obj baseline_units with
    | some bm =>
        (st.1 + 1, st.2.1 + 1,
          st.2.2 ++ [{ variableName := v.name, unit := v.unitsName,
                       mapped_to := bm.1, opb_code := dictGet opb_map bm.1 }])
    | none => (st.1, st.2.1 + 1, st.2.2)

/-- The variables of a model in the order the mapper visits them
(every component in order, every variable of it in order). -/
def allVariables {U : Type} (model : Model U) : List ModelVariable :=
  (model.components.map Component.vars).flatten

/-- Embedding of `map_variable_units_to_opb`
(src/add_milestone3.py:81-117); the result triple is
`(mapped, total, mapping_details)` in the source's return order. -/
def map_variable_units_to_opb {U : Type} (compat : U → U → Bool) (model : Model U)
    (baseline_units : List (String × U)) (opb_map : List (String × List String)) :
    Nat × Nat × List MappingRecord :=
  (allVariables model).foldl (stepVar compat model baseline_units opb_map) (0, 0, [])

/-- The per-file record `main` appends to `stats`
(src/add_milestone3.py:154-159). -/
structure FileReport where
  file : String
  variables_total : Nat
  variables_mapped : Nat
  mapping_details : List MappingRecord
  deriving DecidableEq

/-- One iteration of the per-file loop of `main` on the accumulated
(failure log, stats) pair. -/
def stepFile {U : Type} (compat : U → U → Bool)
    (baseline_units : List (String × U)) (opb_map : List (String × List String))
    (acc : List String × List FileReport) (fp : String × Option (Model U)) :
    List String × List FileReport :=
  match fp.2 with
  | none => (acc.1 ++ [fp.1], acc.2)
  | some model =>
      let r := map_variable_units_to_opb compat model baseline_units opb_map
      (acc.1, acc.2 ++ [{ file := fp.1, variables_total := r.2.1,
                          variables_mapped := r.1, mapping_details := r.2.2 }])

/-- The per-file loop of `main` (src/add_milestone3.py:131-159): each
input is a file path with its parse result (`none` models
`parser.parseModel` returning no model).  The first component collects
one failure-log entry per unparsed file (the `"Failed to parse
model."` print for that path); the second is the `stats` list. -/
def processFiles {U : Type} (compat : U → U → Bool)
    (baseline_units : List (String × U)) (opb_map : List (String × List String))
    (files : List (String × Option (Model U))) :
    List String × List FileReport :=
  files.foldl (stepFile compat baseline_units opb_map) ([], [])

end AddMilestone3

namespace AddMilestone3

/-- First-match behaviour of `List.find?` on an element preceded only by
non-matching ones. -/
theorem find?_first {α : Type} (p : α → Bool) (l₁ l₂ : List α) (a : α)
    (ha : p a = true) (h : ∀ x ∈ l₁, p x = false) :
    (l₁ ++ a :: l₂).find? p = some a := by
  induction l₁ with
  | nil => simp [List.find?, ha]
  | cons x xs ih =>
    have hx : p x = false := h x (List.mem_cons_self x xs)
    simp only [List.cons_append, List.find?, hx]
    exact ih (fun y hy => h y (List.mem_cons_of_mem x hy))

/-- On a list with no match, `List.find?` yields nothing. -/
theorem find?_none_of_all {α : Type} (p : α → Bool) (l : List α)
    (h : ∀ x ∈ l, p x = false) : l.find? p = none :=
  List.find?_eq_none.mpr (fun x hx => by simp [h x hx])

theorem find?_map_replace {α : Type} (k : String) (v : α) (m : List (String × α))
    (h : m.any (fun p => p.1 == k) = true) :
    (m.map (fun p => if p.1 == k then (k, v) else p)).find? (fun p => p.1 == k)
      = some (k, v) := by
  induction m with
  | nil => simp at h
  | cons q rest ih =>
    by_cases hq : q.1 = k
    · simp [List.find?, hq]
    · have hb : (q.1 == k) = false := by simp [hq]
      have hrest : rest.any (fun p => p.1 == k) = true := by
        simpa [List.any_cons, hb] using h
      simpa [List.find?, hb] using ih hrest

theorem find?_map_replace_other {α : Type} (k k' : String) (v : α)
    (m : List (String × α)) (hne : k' ≠ k) :
    (m.map (fun p => if p.1 == k' then (k', v) else p)).find? (fun p => p.1 == k)
      = m.find? (fun p => p.1 == k) := by
  induction m with
  | nil => simp
  | cons q rest ih =>
    by_cases hq : q.1 = k'
    · have h1 : (q.1 == k') = true := by simp [hq]
      have h2 : (k' == k) = false := by simp [hne]
      have h3 : (q.1 == k) = false := by simp [hq, hne]
      simp only [List.map_cons, h1, if_true, List.find?, h2, h3, ih]
    · have h1 : (q.1 == k') = false := by simp [hq]
      simp only [List.map_cons, h1, Bool.false_eq_true, if_false, List.find?, ih]

theorem dictGet_insert_self {α : Type} (m : List (String × α)) (k : String) (v : α) :
    dictGet (dictInsert m k v) k = some v := by
  unfold dictGet dictInsert
  by_cases h : m.any (fun p => p.1 == k) = true
  · rw [if_pos h, find?_map_replace k v m h]
    rfl
  · have h' : ∀ p ∈ m, ((p.1 == k) : Bool) = false := by
      intro p hp
      by_contra hc
      exact h (List.any_eq_true.mpr ⟨p, hp, by revert hc; cases (p.1 == k) <;> simp⟩)
    rw [if_neg h, find?_first (fun p => p.1 == k) m [] (k, v) (by simp) h']
    rfl

theorem dictGet_insert_other {α : Type} (m : List (String × α)) (k k' : String)
    (v : α) (hne : k' ≠ k) : dictGet (dictInsert m k' v) k = dictGet m k := by
  unfold dictGet dictInsert
  by_cases h : m.any (fun p => p.1 == k') = true
  · rw [if_pos h, find?_map_replace_other k k' v m hne]
  · rw [if_neg h, List.find?_append]
    have hkk : (k' == k) = false := by simp [hne]
    have : ([(k', v)].find? (fun p => p.1 == k)) = none := by
      simp [List.find?, hkk]
    rw [this]
    cases m.find? (fun p => p.1 == k) <;> rfl

end AddMilestone3

namespace AddMilestone3

/-- The variable loop of the mapper, unrolled: starting from any state it
adds one emitted record (and one to `mapped`) per variable whose unit
resolves and matches, and one to `total` per variable whose unit name
resolves at all. -/
theorem mapper_foldl {U : Type} (compat : U → U → Bool) (model : Model U)
    (baseline_units : List (String × U)) (opb_map : List (String × List String))
    (vs : List ModelVariable) (st : Nat × Nat × List MappingRecord) :
    vs.foldl (stepVar compat model baseline_units opb_map) st
      = (st.1 + (vs.filterMap (recordFor compat model baseline_units opb_map)).length,
         st.2.1 + (vs.filter
           (fun v => (lookupUnitObj model baseline_units v.unitsName).isSome)).length,
         st.2.2 ++ vs.filterMap (recordFor compat model baseline_units opb_map)) := by
  induction vs generalizing st with
  | nil => simp
  | cons v rest ih =>
    obtain ⟨a, b, c⟩ := st
    cases hl : lookupUnitObj model baseline_units v.unitsName with
    | none =>
      have hrec : recordFor compat model baseline_units opb_map v = none := by
        simp [recordFor, hl]
      have hstep : stepVar compat model baseline_units opb_map (a, b, c) v = (a, b, c) := by
        simp [stepVar, hl]
      simp only [List.foldl_cons, hstep, ih, List.filterMap_cons, hrec,
        List.filter_cons, hl, Option.isSome_none]
      simp
    | some u =>
      cases hr : resolveFirst compat u baseline_units with
      | none =>
        have hrec : recordFor compat model baseline_units opb_map v = none := by
          simp [recordFor, hl, hr]
        have hstep : stepVar compat model baseline_units opb_map (a, b, c) v
            = (a, b + 1, c) := by
          simp [stepVar, hl, hr]
        simp only [List.foldl_cons, hstep, ih, List.filterMap_cons, hrec,
          List.filter_cons, hl, Option.isSome_some]
        refine Prod.ext rfl (Prod.ext ?_ rfl)
        simp
        omega
      | some bm =>
        have hrec : recordFor compat model baseline_units opb_map v
            = some { variableName := v.name, unit := v.unitsName,
                     mapped_to := bm.1, opb_code := dictGet opb_map bm.1 } := by
          simp [recordFor, hl, hr]
        have hstep : stepVar compat model baseline_units opb_map (a, b, c) v
            = (a + 1, b + 1,
               c ++ [{ variableName := v.name, unit := v.unitsName,
                       mapped_to := bm.1, opb_code := dictGet opb_map bm.1 }]) := by
          simp [stepVar, hl, hr]
        simp only [List.foldl_cons, hstep, ih, List.filterMap_cons, hrec,
          List.filter_cons, hl, Option.isSome_some]
        refine Prod.ext ?_ (Prod.ext ?_ ?_)
        · simp; omega
        · simp; omega
        · simp

/-- Closed form of `map_variable_units_to_opb`. -/
theorem mapper_eq {U : Type} (compat : U → U → Bool) (model : Model U)
    (baseline_units : List (String × U)) (opb_map : List (String × List String)) :
    map_variable_units_to_opb compat model baseline_units opb_map
      = (((allVariables model).filterMap
            (recordFor compat model baseline_units opb_map)).length,
         ((allVariables model).filter
            (fun v => (lookupUnitObj model baseline_units v.unitsName).isSome)).length,
         (allVariables model).filterMap
            (recordFor compat model baseline_units opb_map)) := by
  unfold map_variable_units_to_opb
  rw [mapper_foldl]
  simp

/-- A record is only emitted for a variable whose unit name resolved, so
emitted records never outnumber counted variables. -/
theorem filterMap_recordFor_le {U : Type} (compat : U → U → Bool) (model : Model U)
    (baseline_units : List (String × U)) (opb_map : List (String × List String))
    (vs : List ModelVariable) :
    (vs.filterMap (recordFor compat model baseline_units opb_map)).length
      ≤ (vs.filter
          (fun v => (lookupUnitObj model baseline_units v.unitsName).isSome)).length := by
  induction vs with
  | nil => simp
  | cons v rest ih =>
    cases hl : lookupUnitObj model baseline_units v.unitsName with
    | none =>
      have hrec : recordFor compat model baseline_units opb_map v = none := by
        simp [recordFor, hl]
      simp only [List.filterMap_cons, hrec, List.filter_cons, hl, Option.isSome_none]
      simpa using ih
    | some u =>
      cases hr : resolveFirst compat u baseline_units with
      | none =>
        have hrec : recordFor compat model baseline_units opb_map v = none := by
          simp [recordFor, hl, hr]
        simp only [List.filterMap_cons, hrec, List.filter_cons, hl, Option.isSome_some]
        simp
        omega
      | some bm =>
        have hrec : (recordFor compat model baseline_units opb_map v).isSome = true := by
          simp [recordFor, hl, hr]
        cases hrec' : recordFor compat model baseline_units opb_map v with
        | none => rw [hrec'] at hrec; simp at hrec
        | some r =>
          simp only [List.filterMap_cons, hrec', List.filter_cons, hl, Option.isSome_some]
          simp
          omega

/-- The per-file loop from an arbitrary accumulator just prepends the
accumulator to the result from the empty one. -/
theorem processFiles_go {U : Type} (compat : U → U → Bool)
    (baseline_units : List (String × U)) (opb_map : List (String × List String))
    (files : List (String × Option (Model U))) (acc : List String × List FileReport) :
    files.foldl (stepFile compat baseline_units opb_map) acc
      = (acc.1 ++ (processFiles compat baseline_units opb_map files).1,
         acc.2 ++ (processFiles compat baseline_units opb_map files).2) := by
  induction files generalizing acc with
  | nil => simp [processFiles]
  | cons fp rest ih =>
    rw [List.foldl_cons, ih]
    have hR : processFiles compat baseline_units opb_map (fp :: rest)
        = ((stepFile compat baseline_units opb_map ([], []) fp).1
             ++ (processFiles compat baseline_units opb_map rest).1,
           (stepFile compat baseline_units opb_map ([], []) fp).2
             ++ (processFiles compat baseline_units opb_map rest).2) := by
      show (fp :: rest).foldl (stepFile compat baseline_units opb_map) ([], []) = _
      rw [List.foldl_cons, ih]
    rw [hR]
    obtain ⟨path, parsed⟩ := fp
    cases parsed <;> simp [stepFile, List.append_assoc]

end AddMilestone3

namespace AddMilestone3

/-- Rewriting the ontology map at one key leaves every other key's lookup
unchanged across a run of further lines, provided none of those lines
assigns that key. -/
theorem opb_map_preserve (n : String) (m : List (String × List String))
    (post : List (List Char))
    (hpost : ∀ l ∈ post, ∀ cs', lineSubject? l ≠ some (n, cs')) :
    dictGet (post.foldl processLine m) n = dictGet m n := by
  induction post generalizing m with
  | nil => rfl
  | cons l rest ih =>
    rw [List.foldl_cons]
    rw [ih (processLine m l) (fun x hx => hpost x (List.mem_cons_of_mem l hx))]
    cases hls : lineSubject? l with
    | none => simp [processLine, hls]
    | some nc =>
      obtain ⟨n', cs'⟩ := nc
      have hne : n' ≠ n := by
        intro he
        subst he
        exact hpost l (List.mem_cons_self l rest) cs' hls
      simp only [processLine, hls]
      exact dictGet_insert_other m n n' cs' hne

end AddMilestone3

namespace AddMilestone3

/-- C1: the Compatibility Resolver scans the baseline units in the stored
order and selects the first one the compatibility predicate accepts —
so a compatible baseline unit preceded only by incompatible ones is the
one selected — and selects none when the predicate rejects every
baseline unit. -/
theorem resolver_first_match {U : Type} (compat : U → U → Bool) (u : U)
    (earlier later : List (String × U)) (name : String) (B : U)
    (hB : compat u B = true)
    (hEarlier : ∀ p ∈ earlier, compat u p.2 = false) :
    resolveFirst compat u (earlier ++ (name, B) :: later) = some (name, B) ∧
    ∀ (u' : U) (l : List (String × U)),
      (∀ p ∈ l, compat u' p.2 = false) → resolveFirst compat u' l = none := by
  constructor
  · exact find?_first _ earlier later (name, B) hB hEarlier
  · intro u' l h
    exact find?_none_of_all _ l h

/-- C1 witness: two synthetic baseline units with the same dimension
vector (here the unit object `5`); the first-declared one wins. -/
theorem resolver_first_match_witness :
    resolveFirst (fun a b => a == b) 5 [("A", (3 : Nat)), ("B", 5), ("C", 5)]
      = some ("B", 5) :=
  (resolver_first_match (fun a b => a == b) 5 [("A", 3)] [("C", 5)] "B" 5
    (by decide) (by decide)).1

/-- C2 counterexample: a variable whose unit matches baseline unit `B`
while `B` is absent from the ontology table gives `mapped = 1` but zero
MappingRecords with a non-null `opb_code`, refuting the claimed
invariant `mapped = count of records with non-null opb_code`. -/
theorem mapped_count_nonnull_cex :
    (map_variable_units_to_opb (fun a b => a == b)
      (Model.mk [("u1", (5 : Nat))] [Component.mk "c" [ModelVariable.mk "v" "u1"]])
      [("B", 5)] []).1 = 1 ∧
    ((map_variable_units_to_opb (fun a b => a == b)
      (Model.mk [("u1", (5 : Nat))] [Component.mk "c" [ModelVariable.mk "v" "u1"]])
      [("B", 5)] []).2.2.filter (fun r => r.opb_code.isSome)).length = 0 := by
  decide

/-- C2 amended: the returned `mapped` count equals the total number of
MappingRecords in `mapping_details` — records whose matched baseline
name is absent from the ontology table carry a null `opb_code` yet are
still counted. -/
theorem mapped_eq_details_length {U : Type} (compat : U → U → Bool) (model : Model U)
    (baseline_units : List (String × U)) (opb_map : List (String × List String)) :
    (map_variable_units_to_opb compat model baseline_units opb_map).1
      = (map_variable_units_to_opb compat model baseline_units opb_map).2.2.length := by
  rw [mapper_eq]

/-- C3 counterexample: a variable whose resolved unit is compatible with
no baseline unit increments `total` and not `mapped`, but — contrary to
the claim — no MappingRecord at all is emitted for it
(`mapping_details` stays empty). -/
theorem incompatible_variable_record_cex :
    map_variable_units_to_opb (fun a b => a == b)
      (Model.mk [("u1", (5 : Nat))] [Component.mk "c" [ModelVariable.mk "v" "u1"]])
      [("B", 7)] [] = (0, 1, []) := by
  decide

/-- C3 amended: for a variable whose resolved unit object is incompatible
with every baseline unit, the resolver selects nothing, and the mapper
increments `total`, leaves `mapped` unchanged and emits no
MappingRecord for it. -/
theorem incompatible_variable_total_only {U : Type} (compat : U → U → Bool)
    (model : Model U) (baseline_units : List (String × U))
    (opb_map : List (String × List String)) (st : Nat × Nat × List MappingRecord)
    (v : ModelVariable) (u : U)
    (hlook : lookupUnitObj model baseline_units v.unitsName = some u)
    (hincomp : ∀ p ∈ baseline_units, compat u p.2 = false) :
    resolveFirst compat u baseline_units = none ∧
    stepVar compat model baseline_units opb_map st v = (st.1, st.2.1 + 1, st.2.2) := by
  have hres : resolveFirst compat u baseline_units = none :=
    find?_none_of_all _ _ hincomp
  exact ⟨hres, by simp [stepVar, hlook, hres]⟩

/-- C3 amended, witness at a concrete model. -/
theorem incompatible_variable_total_only_witness :
    resolveFirst (fun a b => a == b) 5 [("B", (7 : Nat))] = none ∧
    stepVar (fun a b => a == b)
      (Model.mk [("u1", (5 : Nat))] [Component.mk "c" [ModelVariable.mk "v" "u1"]])
      [("B", 7)] [] (0, 0, []) (ModelVariable.mk "v" "u1") = (0, 1, []) :=
  incompatible_variable_total_only (fun a b => a == b)
    (Model.mk [("u1", (5 : Nat))] [Component.mk "c" [ModelVariable.mk "v" "u1"]])
    [("B", 7)] [] (0, 0, []) (ModelVariable.mk "v" "u1") 5 (by decide) (by decide)

/-- C4: on the spec's own example line the scanner returns the second
code as `"OPB_01064 "` — the trailing period is deleted by
`replace(".", "")` but the blank before it survives — so the produced
list differs from the specified `["OPB_00269", "OPB_01064"]`. -/
theorem opb_codes_trailing_space :
    load_opb_mappings ["ex:um is_unit_of: opb:OPB_00269, opb:OPB_01064 .".data]
      = [("um", ["OPB_00269", "OPB_01064 "])] ∧
    (["OPB_00269", "OPB_01064 "] : List String) ≠ ["OPB_00269", "OPB_01064"] := by
  decide

/-- C5: a declared unit name is resolved against the model's local units
first (the local object wins even when a baseline unit has the same
name), then against the baseline names, and a variable matching neither
is skipped with the mapper state untouched. -/
theorem declared_unit_resolution_order {U : Type} (baseline_units : List (String × U))
    (name : String) :
    (∀ (m₁ m₂ : List (String × U)) (u : U) (comps : List Component),
      (∀ p ∈ m₁, p.1 ≠ name) →
      lookupUnitObj (Model.mk (m₁ ++ (name, u) :: m₂) comps) baseline_units name
        = some u) ∧
    (∀ (locals : List (String × U)) (comps : List Component)
        (b₁ b₂ : List (String × U)) (u : U),
      (∀ p ∈ locals, p.1 ≠ name) → (∀ p ∈ b₁, p.1 ≠ name) →
      lookupUnitObj (Model.mk locals comps) (b₁ ++ (name, u) :: b₂) name = some u) ∧
    (∀ (compat : U → U → Bool) (opb_map : List (String × List String))
        (st : Nat × Nat × List MappingRecord) (locals : List (String × U))
        (comps : List Component) (vn : String),
      (∀ p ∈ locals, p.1 ≠ name) → (∀ p ∈ baseline_units, p.1 ≠ name) →
      lookupUnitObj (Model.mk locals comps) baseline_units name = none ∧
      stepVar compat (Model.mk locals comps) baseline_units opb_map st
        (ModelVariable.mk vn name) = st) := by
  refine ⟨?_, ?_, ?_⟩
  · intro m₁ m₂ u comps h
    simp only [lookupUnitObj]
    rw [find?_first (fun p => p.1 == name) m₁ m₂ (name, u) (by simp)
      (fun p hp => by simp [h p hp])]
  · intro locals comps b₁ b₂ u hl hb
    simp only [lookupUnitObj, dictGet]
    rw [find?_none_of_all _ _ (fun p hp => by simp [hl p hp])]
    rw [find?_first (fun p => p.1 == name) b₁ b₂ (name, u) (by simp)
      (fun p hp => by simp [hb p hp])]
    rfl
  · intro compat opb_map st locals comps vn hl hb
    have hlook : lookupUnitObj (Model.mk locals comps) baseline_units name = none := by
      simp only [lookupUnitObj, dictGet]
      rw [find?_none_of_all _ _ (fun p hp => by simp [hl p hp])]
      rw [find?_none_of_all _ _ (fun p hp => by simp [hb p hp])]
      rfl
    exact ⟨hlook, by simp [stepVar, hlook]⟩

/-- C5 witness: with a local unit object `5` and a baseline unit of the
same name carrying object `9`, the local object is the one used. -/
theorem declared_unit_resolution_order_witness :
    lookupUnitObj (Model.mk [("u1", (5 : Nat))] []) [("u1", 9)] "u1" = some 5 :=
  (declared_unit_resolution_order [("u1", (9 : Nat))] "u1").1 [] [] 5 [] (by simp)

/-- C6: when several qualifying lines share a subject unit name, the
resolved mapping for that name is the code list of the last such line,
replacing every earlier one. -/
theorem last_qualifying_line_wins (pre post : List (List Char)) (line : List Char)
    (n : String) (cs : List String)
    (hline : lineSubject? line = some (n, cs))
    (hpost : ∀ l ∈ post, ∀ cs', lineSubject? l ≠ some (n, cs')) :
    dictGet (load_opb_mappings (pre ++ line :: post)) n = some cs := by
  unfold load_opb_mappings
  rw [List.foldl_append, List.foldl_cons]
  rw [opb_map_preserve n _ post hpost]
  simp only [processLine, hline]
  exact dictGet_insert_self _ n cs

/-- C6 witness: two declarations of `um`; the later code list replaces
the earlier one. -/
theorem last_qualifying_line_wins_witness :
    dictGet (load_opb_mappings
      ["ex:um is_unit_of: opb:OPB_00269.".data,
       "ex:um is_unit_of: opb:OPB_01064.".data]) "um" = some ["OPB_01064"] :=
  last_qualifying_line_wins ["ex:um is_unit_of: opb:OPB_00269.".data] []
    "ex:um is_unit_of: opb:OPB_01064.".data "um" ["OPB_01064"]
    (by decide) (by simp)

/-- C7 counterexample: a unit-definition file that parses into a model
with zero units does not abort the run — `parse_baseline_units` returns
an empty baseline dict instead of failing, contrary to the claimed
"at least one baseline unit" failure condition. -/
theorem empty_baseline_parse_ok_cex :
    parse_baseline_units (some ([] : List (String × Nat))) = .ok [] := rfl

/-- C7 amended: Reference Store loading ends the run (no partial run)
whenever the external unit-definition source cannot be fetched (cache
absent, HTTP error), or the parser yields no model object for it, or
the association-table source is missing (no local cache and its fetch
fails); a model that parses with zero baseline units is accepted and
produces a (possibly empty) baseline dict instead of failing. -/
theorem reference_load_failure_modes {U : Type} :
    (∀ c : Option (List Char),
        download_file (FsState.mk false c) .httpError = .error ()) ∧
    (parse_baseline_units (none : Option (List (String × U))) = .error ()) ∧
    (∀ c : Option (List Char),
        load_opb_mappings_fetch (FsState.mk false c) .httpError = .error ()) ∧
    (∀ units : List (String × U), ∃ d, parse_baseline_units (some units) = .ok d) :=
  ⟨fun _ => rfl, rfl, fun _ => rfl, fun _ => ⟨_, rfl⟩⟩

/-- C8: a file whose parse yields no model object contributes exactly one
failure-log entry and no FileReport, and the files after it are still
processed: the run's reports are those of the surrounding files. -/
theorem parse_failure_file_skipped {U : Type} (compat : U → U → Bool)
    (baseline_units : List (String × U)) (opb_map : List (String × List String))
    (pre post : List (String × Option (Model U))) (f : String) :
    processFiles compat baseline_units opb_map (pre ++ (f, none) :: post)
      = ((processFiles compat baseline_units opb_map pre).1
           ++ f :: (processFiles compat baseline_units opb_map post).1,
         (processFiles compat baseline_units opb_map pre).2
           ++ (processFiles compat baseline_units opb_map post).2) := by
  have hmid : stepFile compat baseline_units opb_map
      (processFiles compat baseline_units opb_map pre) (f, none)
      = ((processFiles compat baseline_units opb_map pre).1 ++ [f],
         (processFiles compat baseline_units opb_map pre).2) := rfl
  show (pre ++ (f, none) :: post).foldl (stepFile compat baseline_units opb_map)
      ([], []) = _
  rw [List.foldl_append, List.foldl_cons]
  show post.foldl (stepFile compat baseline_units opb_map)
      (stepFile compat baseline_units opb_map
        (processFiles compat baseline_units opb_map pre) (f, none)) = _
  rw [hmid, processFiles_go]
  simp [List.append_assoc]

/-- C9: when the cache file exists `download_file` touches neither the
network nor the filesystem; when it is absent, a successful fetch is
performed and written to the cache, and a failed fetch ends the run. -/
theorem cache_short_circuits_network :
    (∀ (c : Option (List Char)) (fetch : FetchResult),
        download_file (FsState.mk true c) fetch = .ok (FsState.mk true c, false)) ∧
    (∀ (c : Option (List Char)) (text : List Char),
        download_file (FsState.mk false c) (.ok text)
          = .ok (FsState.mk true (some text), true)) ∧
    (∀ c : Option (List Char),
        download_file (FsState.mk false c) .httpError = .error ()) :=
  ⟨fun _ _ => rfl, fun _ _ => rfl, fun _ => rfl⟩

/-- C10: the mapper keeps `mapped ≤ total`, returns `mapped` equal to the
length of `mapping_details`, and `mapping_details` contains exactly one
record per successfully resolved variable (it is the `filterMap` of the
per-variable record over the model's variables in order). -/
theorem mapper_count_invariants {U : Type} (compat : U → U → Bool) (model : Model U)
    (baseline_units : List (String × U)) (opb_map : List (String × List String)) :
    (map_variable_units_to_opb compat model baseline_units opb_map).1
        ≤ (map_variable_units_to_opb compat model baseline_units opb_map).2.1 ∧
    (map_variable_units_to_opb compat model baseline_units opb_map).1
        = (map_variable_units_to_opb compat model baseline_units opb_map).2.2.length ∧
    (map_variable_units_to_opb compat model baseline_units opb_map).2.2
        = (allVariables model).filterMap
            (recordFor compat model baseline_units opb_map) := by
  rw [mapper_eq]
  exact ⟨filterMap_recordFor_le compat model baseline_units opb_map (allVariables model),
    rfl, rfl⟩

end AddMilestone3
